import Mathlib

/-!
Shallow embedding of the recording-reconciliation engine of the
`xomamiddleware` backend (Django/Python), together with proofs of the
specification claims about it.

The embedding follows `BACKEND/integrations/recording_service.py`,
`BACKEND/integrations/drive_client.py`,
`BACKEND/integrations/meet_conference_client.py`,
`BACKEND/meetings/tasks.py` and `BACKEND/meetings/views.py`.

Modelling conventions:
* timestamps (Django `DateTimeField`, ISO-8601 strings from the Google
  APIs) are integers (seconds);
* nullable fields are `Option`;
* external Google API calls are a record of functions (`GEnv`) returning
  `Except GError`, where `GError` stands for the exception class the
  client layer would raise (already classified the way
  `drive_client.py` / `meet_conference_client.py` classify `HttpError`s);
* the persisted `MeetingRecording` table is a `List MeetingRecording`;
  `update_or_create(meeting=..., defaults=...)` becomes `upsert_recording`;
* Python truthiness on optional strings (`if meeting.google_event_id:`)
  is `optTruthy` (empty string is falsy).
-/

/-- Exception classes from `core/exceptions.py` that reach the
reconciliation engine, plus a catch-all for other `Exception`s. -/
inductive GError where
  | driveError
  | meetError
  | authenticationError
  | quotaExceeded
  | otherError
deriving DecidableEq, Repr

/-- Python truthiness of an optional string: `None` and `''` are falsy. -/
def optTruthy : Option String → Bool
  | some s => s ≠ ""
  | none => false

/-- `cs` starts with `pat` (on character lists, so that it evaluates by
kernel reduction). -/
def charsStartWith : List Char → List Char → Bool
  | _, [] => true
  | [], _ :: _ => false
  | c :: cs, p :: ps => c == p && charsStartWith cs ps

/-- `pat` occurs somewhere in `s` (character lists). -/
def charsContain (pat : List Char) : List Char → Bool
  | [] => charsStartWith [] pat
  | c :: cs => charsStartWith (c :: cs) pat || charsContain pat cs

/-- Python `s.startswith(pat)`. -/
def strStartsWith (s pat : String) : Bool :=
  charsStartWith s.data pat.data

/-- Python `pat in s` (substring test), with `'' in s` true. -/
def strContains (s pat : String) : Bool :=
  charsContain pat.data s.data

/-- A file as returned by the Drive `files().list` search queries
(`drive_client.py`); the service only reads `id` and `name`. -/
structure DriveFile where
  id : Option String
  name : Option String
deriving DecidableEq, Repr

/-- Metadata from `drive_client.get_file_metadata`
(`videoMediaMetadata.durationMillis`, `createdTime`, `webViewLink`). -/
structure FileMetadata where
  videoDurationMillis : Option Nat
  createdTime : Option Int
  webViewLink : Option String
deriving DecidableEq, Repr

/-- A `conferenceRecords.recordings` resource from the Meet API,
as consumed by `recording_service.py` (`driveDestination.file`,
`driveDestination.exportUri`, `state`, `startTime`, `endTime`). -/
structure ApiRecording where
  driveFileId : Option String
  driveExportUri : Option String
  state : Option String
  startTime : Option Int
  endTime : Option Int
deriving DecidableEq, Repr

/-- A Google Calendar event as read by `_filter_recordings_by_meeting`
(only `summary` is used). -/
structure EventInfo where
  summary : Option String
deriving DecidableEq, Repr

/-- `meetings.models.Meeting`, restricted to the fields the
reconciliation engine reads.  `meet_link` and `created_at` are
non-nullable in the model (`URLField`, `auto_now_add`). -/
structure Meeting where
  id : Nat
  google_event_id : Option String
  meet_link : String
  scheduled_start : Option Int
  scheduled_end : Option Int
  status : String
  conference_record_id : Option String
  created_at : Int
deriving DecidableEq, Repr

/-- `meetings.models.MeetingRecording`: at most one per meeting
(`OneToOneField`); `created_at` is set on insert (`auto_now_add`). -/
structure MeetingRecording where
  meetingId : Nat
  drive_file_id : Option String
  drive_file_url : Option String
  duration_seconds : Option Int
  recording_state : Option String
  recording_start_time : Option Int
  recording_end_time : Option Int
  available_at : Option Int
  created_at : Int
deriving DecidableEq, Repr

/-- The external Google services consumed by the engine.  Each field is
one raw API listing/fetch; the result is already classified into the
`GError` the corresponding client method would raise.  List results come
back in the API's listing order (the Drive queries order by
`createdTime desc`). -/
structure GEnv where
  /-- whether `self.conference_client` was initialised (it is `None`
  when `GoogleMeetConferenceClient()` fails). -/
  confClientAvailable : Bool
  /-- Drive `files().list` for the name-contains-meeting-code query of
  `search_recording_by_meeting_code`. -/
  driveListByCodeQuery : String → Except GError (List DriveFile)
  /-- Drive `files().list` for the properties query of
  `search_recording_by_event_id` (strategy 1). -/
  driveListByEventProps : String → Except GError (List DriveFile)
  /-- Drive `files().list` for the name-contains-event-id query of
  `search_recording_by_event_id` (strategy 2). -/
  driveListByEventName : String → Except GError (List DriveFile)
  /-- Drive `files().list` for `search_recordings_by_date_range`. -/
  driveListByDateRange : Int → Int → Except GError (List DriveFile)
  /-- `drive_client.get_file_metadata`. -/
  driveGetMetadata : String → Except GError FileMetadata
  /-- Meet `conferenceRecords().recordings().list` (all pages, listing
  order) as used by `meet_conference_client.list_recordings`; a 404 is
  already turned into `.ok []` by the client. -/
  confListRecordings : String → Except GError (List ApiRecording)
  /-- `GoogleCalendarClient.get_event` called with
  `meeting.google_event_id` (possibly `None`, which errors). -/
  calendarGetEvent : Option String → Except GError EventInfo

/-! ### Generic stable insertion sort (used to model Python's stable
`list.sort` and the SQL `ORDER BY` of the batch query) -/

/-- Insert `x` into `l` before the first element `y` with `le x y`;
for a total preorder `le` this is the stable insertion step (an element
arriving later is placed after the elements it ties with). -/
def insertLe (le : α → α → Bool) (x : α) : List α → List α
  | [] => [x]
  | y :: ys => if le x y then x :: y :: ys else y :: insertLe le x ys

/-- Stable insertion sort by the Bool comparator `le`. -/
def sortLe (le : α → α → Bool) : List α → List α
  | [] => []
  | x :: xs => insertLe le x (sortLe le xs)

/-- First minimal element of `l` under `le` (earliest among ties);
this is what `(sortLe le l).head?` returns. -/
def firstLe (le : α → α → Bool) : List α → Option α
  | [] => none
  | x :: xs =>
    match firstLe le xs with
    | none => some x
    | some m => if le x m then some x else some m

/-! ### Drive client (`drive_client.py`) -/

/-- `drive_client.get_file_url`. -/
def get_file_url (file_id : String) : String :=
  "https://drive.google.com/file/d/" ++ file_id ++ "/view"

/-- `drive_client.search_recording_by_meeting_code`: run the
name-contains query, then keep only files whose name *starts with* the
meeting code, returning the first (most recent) such file.  Errors of
the underlying query propagate (the client re-raises them as
`GoogleDriveError` / `GoogleAuthenticationError` /
`GoogleAPIQuotaExceeded`). -/
def search_recording_by_meeting_code (env : GEnv) (meeting_code : String) :
    Except GError (Option DriveFile) :=
  match env.driveListByCodeQuery meeting_code with
  | .error e => .error e
  | .ok files =>
    if files.isEmpty then .ok none
    else
      match files.filter (fun f => strStartsWith (f.name.getD "") meeting_code) with
      | [] => .ok none
      | m :: _ => .ok (some m)

/-- `drive_client.search_recording_by_event_id`: a properties query
whose failures are swallowed (`except Exception: pass`), then a
name-contains query whose `HttpError` handler re-raises only
quota-exceeded and returns `None` for every other error. -/
def search_recording_by_event_id (env : GEnv) (event_id : String) :
    Except GError (Option DriveFile) :=
  match env.driveListByEventProps event_id with
  | .ok (f :: _) => .ok (some f)
  | _ =>
    match env.driveListByEventName event_id with
    | .ok (f :: _) => .ok (some f)
    | .ok [] => .ok none
    | .error .quotaExceeded => .error .quotaExceeded
    | .error _ => .ok none

/-- `drive_client.search_recordings_by_date_range` (errors propagate). -/
def search_recordings_by_date_range (env : GEnv) (start_time end_time : Int) :
    Except GError (List DriveFile) :=
  env.driveListByDateRange start_time end_time

/-! ### Meet conference client (`meet_conference_client.py`) -/

/-- `meet_conference_client.list_recordings`: list all recordings of a
conference record and, when `only_ready`, keep only those with
`state == FILE_GENERATED`. -/
def list_recordings (env : GEnv) (conference_record_name : String)
    (only_ready : Bool) : Except GError (List ApiRecording) :=
  match env.confListRecordings conference_record_name with
  | .error e => .error e
  | .ok rs =>
    .ok (if only_ready then rs.filter (fun r => r.state == some "FILE_GENERATED") else rs)

/-! ### Recording sync service (`recording_service.py`) -/

/-- Meet-code extraction from the join link
(`meeting.meet_link.split('meet.google.com/')[-1].split('?')[0].split('/')[0]`,
`_find_recording_in_drive` line 233). -/
def extract_meeting_code (link : String) : String :=
  ((((link.splitOn "meet.google.com/").getLastD "").splitOn "?").headD "").splitOn "/"
    |>.headD ""

/-- Comparator for Python's
`recordings.sort(key=lambda x: x.get('endTime', ''), reverse=True)`:
`a` may come before `b` iff `b`'s end-timestamp is at most `a`'s, a
missing `endTime` (key `''`) sorting below every present one. -/
def optIntLe : Option Int → Option Int → Bool
  | none, _ => true
  | some _, none => false
  | some x, some y => x ≤ y

/-- Descending-by-`endTime` comparator on API recordings. -/
def apiRecGe (a b : ApiRecording) : Bool :=
  optIntLe b.endTime a.endTime

/-- `_find_recording_from_conference_record`: guard on
`meeting.conference_record_id and self.conference_client`, list the
ready (`FILE_GENERATED`) recordings, stable-sort them by `endTime`
descending and take the first; every error is caught and becomes
`None`. -/
def find_recording_from_conference_record (env : GEnv) (m : Meeting) :
    Option ApiRecording :=
  if optTruthy m.conference_record_id ∧ env.confClientAvailable then
    match list_recordings env
        ("conferenceRecords/" ++ m.conference_record_id.getD "") true with
    | .error _ => none
    | .ok recs => (sortLe apiRecGe recs).head?
  else none

/-- Words of a (lowercased) title, Python `str.split()`. -/
def splitWords (s : String) : List String :=
  (s.split (fun c => c.isWhitespace)).filter (fun w => w ≠ "")

/-- Score of `_filter_recordings_by_meeting`: number of distinct words
shared by the event title and the file name (Python set intersection
of the two word sets). -/
def commonScore (event_words : List String) (name : String) : Nat :=
  (((splitWords name).filter (fun w => event_words.contains w)).dedup).length

/-- `_filter_recordings_by_meeting`: fetch the calendar event title and
keep the recording with the strictly best word-overlap score (first one
among equal scores, score must be positive); every error becomes
`None`. -/
def filter_recordings_by_meeting (env : GEnv) (recordings : List DriveFile)
    (m : Meeting) : Option DriveFile :=
  match env.calendarGetEvent m.google_event_id with
  | .error _ => none
  | .ok ev =>
    let event_title := (ev.summary.getD "").toLower
    if event_title = "" then none
    else
      let event_words := splitWords event_title
      let best := recordings.foldl
        (fun (acc : Option DriveFile × Nat) r =>
          let score := commonScore event_words ((r.name.getD "").toLower)
          if acc.2 < score then (some r, score) else acc)
        (none, 0)
      match best with
      | (some r, s) => if 0 < s then some r else none
      | (none, _) => none

/-- The date window of `_find_recording_in_drive` (lines 250-268): if
`scheduled_start` exists and is not in the future, use
`[start - 5min, end + 15min]` (or `[start - 5min, start + 2h]` without
`scheduled_end`); otherwise fall back to
`[created_at - 1h, created_at + 2h]` (`created_at` is non-nullable, so
the final `return None` branch of the Python code is unreachable). -/
def date_window (now : Int) (m : Meeting) : Int × Int :=
  match m.scheduled_start with
  | some s =>
    if s ≤ now then
      (s - 300, match m.scheduled_end with
                | some e => e + 900
                | none => s + 7200)
    else (m.created_at - 3600, m.created_at + 7200)
  | none => (m.created_at - 3600, m.created_at + 7200)

/-- Strategies 3-5 of `_find_recording_in_drive` (lines 250-305): search
the date window; on zero hits or any error, `None`; on several hits, try
the meet-code substring filter, then the calendar-title filter, then the
most recent file. -/
def find_recording_by_date (env : GEnv) (now : Int) (m : Meeting) :
    Option DriveFile :=
  let win := date_window now m
  match search_recordings_by_date_range env win.1 win.2 with
  | .error _ => none
  | .ok [] => none
  | .ok (r0 :: rest) =>
    if rest.isEmpty then some r0
    else
      let byCode :=
        if m.meet_link ≠ "" then
          (r0 :: rest).filter
            (fun r => strContains (r.name.getD "") (extract_meeting_code m.meet_link))
        else []
      match byCode with
      | f :: _ => some f
      | [] =>
        match filter_recordings_by_meeting env (r0 :: rest) m with
        | some f => some f
        | none => some r0

/-- `_find_recording_in_drive`: meet-code strategy (errors swallowed by
the inner `try`, search continues), then event-id strategy (an error
here falls into the function's outer handlers, aborting the remaining
strategies with `None`), then the date-window strategies. -/
def find_recording_in_drive (env : GEnv) (now : Int) (m : Meeting) :
    Option DriveFile :=
  let s1 : Option DriveFile :=
    if m.meet_link ≠ "" then
      let meeting_code := extract_meeting_code m.meet_link
      if meeting_code ≠ "" ∧ 5 < meeting_code.length then
        match search_recording_by_meeting_code env meeting_code with
        | .ok (some f) => some f
        | _ => none
      else none
    else none
  match s1 with
  | some f => some f
  | none =>
    if optTruthy m.google_event_id then
      match search_recording_by_event_id env (m.google_event_id.getD "") with
      | .ok (some f) => some f
      | .error _ => none
      | .ok none => find_recording_by_date env now m
    else find_recording_by_date env now m

/-- `_calculate_duration_from_timestamps`: `end - start` in seconds when
both timestamps are present. -/
def calculate_duration_from_timestamps (start_time end_time : Option Int) :
    Option Int :=
  match start_time, end_time with
  | some s, some e => some (e - s)
  | _, _ => none

/-- A fresh `MeetingRecording` row before `defaults` are applied: all
nullable fields `NULL`, `created_at` set by `auto_now_add`. -/
def emptyRecording (mid : Nat) (now : Int) : MeetingRecording :=
  ⟨mid, none, none, none, none, none, none, none, now⟩

/-- `MeetingRecording.objects.update_or_create(meeting=..., defaults=...)`
inside `transaction.atomic()`: keyed on the meeting, apply the defaults
to the existing row in place, or insert a fresh row with the defaults.
Returns the row together with the new table state. -/
def upsert_recording (now : Int) (mid : Nat)
    (applyDefaults : MeetingRecording → MeetingRecording)
    (store : List MeetingRecording) : MeetingRecording × List MeetingRecording :=
  match store.find? (fun r => r.meetingId == mid) with
  | some old =>
    (applyDefaults old,
     store.map (fun r => if r.meetingId == mid then applyDefaults r else r))
  | none =>
    let nr := applyDefaults (emptyRecording mid now)
    (nr, store ++ [nr])

/-- The `defaults` of `_create_or_update_recording_from_api`. -/
def apiDefaults (d : ApiRecording) (r : MeetingRecording) : MeetingRecording :=
  { r with
    drive_file_id := d.driveFileId,
    drive_file_url := d.driveExportUri,
    duration_seconds := calculate_duration_from_timestamps d.startTime d.endTime,
    recording_state := d.state,
    recording_start_time := d.startTime,
    recording_end_time := d.endTime,
    available_at := d.endTime }

/-- `_create_or_update_recording_from_api`: bail out with `None` (and no
write) when `driveDestination.file` is missing or empty, else upsert the
normalized fields. -/
def create_or_update_recording_from_api (now : Int) (m : Meeting)
    (recording_data : ApiRecording) (store : List MeetingRecording) :
    Option (MeetingRecording × List MeetingRecording) :=
  if optTruthy recording_data.driveFileId then
    some (upsert_recording now m.id (apiDefaults recording_data) store)
  else none

/-- The `defaults` of `_create_or_update_recording_from_drive`:
duration from the video metadata (ms → s, truncated), `available_at`
from the file's `createdTime`, url from `webViewLink` with the
`get_file_url` fallback (Python `or`, so an empty link also falls
back).  `recording_state` and the recording timestamps are not among
the defaults and are left untouched. -/
def driveDefaults (file_id : String) (md : FileMetadata)
    (r : MeetingRecording) : MeetingRecording :=
  { r with
    drive_file_id := some file_id,
    drive_file_url :=
      some (if optTruthy md.webViewLink then md.webViewLink.getD ""
            else get_file_url file_id),
    duration_seconds := md.videoDurationMillis.map (fun ms => ((ms / 1000 : Nat) : Int)),
    available_at := md.createdTime }

/-- `_create_or_update_recording_from_drive`: fetch the full metadata of
the found file and upsert the normalized fields; a missing file id or a
metadata error raises (and is caught by the caller), leaving the table
untouched — modelled as `none`. -/
def create_or_update_recording_from_drive (env : GEnv) (now : Int) (m : Meeting)
    (drive_file_info : DriveFile) (store : List MeetingRecording) :
    Option (MeetingRecording × List MeetingRecording) :=
  match drive_file_info.id with
  | none => none
  | some file_id =>
    match env.driveGetMetadata file_id with
    | .error _ => none
    | .ok md => some (upsert_recording now m.id (driveDefaults file_id md) store)

/-- `RecordingSyncService.sync_meeting_recording`: return the existing
recording unchanged when there is one; otherwise try the Conference
Records strategy (when a conference record id and the conference client
are available and it yields data, its outcome is final), then the Drive
strategies.  Every `GoogleDriveError` / `GoogleMeetError` / other
exception is caught and turned into `None`. -/
def sync_meeting_recording (env : GEnv) (now : Int) (m : Meeting)
    (store : List MeetingRecording) :
    Option MeetingRecording × List MeetingRecording :=
  match store.find? (fun r => r.meetingId == m.id) with
  | some r => (some r, store)
  | none =>
    let viaApi : Option (Option MeetingRecording × List MeetingRecording) :=
      if optTruthy m.conference_record_id ∧ env.confClientAvailable then
        match find_recording_from_conference_record env m with
        | some recording_data =>
          some (match create_or_update_recording_from_api now m recording_data store with
                | some (r, store') => (some r, store')
                | none => (none, store))
        | none => none
      else none
    match viaApi with
    | some res => res
    | none =>
      match find_recording_in_drive env now m with
      | none => (none, store)
      | some drive_file =>
        match create_or_update_recording_from_drive env now m drive_file store with
        | some (r, store') => (some r, store')
        | none => (none, store)

/-! ### Batch scheduler (`sync_all_recordings`) -/

/-- The `has_conference_id` annotation of the batch query: 0 when
`conference_record_id` is non-NULL, 1 otherwise. -/
def confRank (m : Meeting) : Nat :=
  if m.conference_record_id.isSome then 0 else 1

/-- The `ORDER BY` of the batch query
(`order_by('has_conference_id', '-scheduled_start', '-created_at')`):
conference-record holders first, then most recent `scheduled_start`
first with NULLs last (the SQLite backend of the default configuration
sorts NULL below every value, hence last under DESC, as the code's own
comment `NULLs al final` states), then most recent `created_at` first. -/
def meeting_priority_le (a b : Meeting) : Bool :=
  if confRank a < confRank b then true
  else if confRank b < confRank a then false
  else
    match a.scheduled_start, b.scheduled_start with
    | some x, some y =>
      if y < x then true
      else if x < y then false
      else b.created_at ≤ a.created_at
    | some _, none => true
    | none, some _ => false
    | none, none => b.created_at ≤ a.created_at

/-- The batch selection queryset: meetings with no associated recording
(`exclude(recording__isnull=False)`; the `meet_link__isnull=False`
filter is vacuous since `meet_link` is a non-nullable column), in the
priority order above. -/
def sync_all_queryset (allMeetings : List Meeting)
    (store : List MeetingRecording) : List Meeting :=
  sortLe meeting_priority_le
    (allMeetings.filter
      (fun m => (store.find? (fun r => r.meetingId == m.id)).isNone))

/-- `queryset[:limit]` guarded by `if limit:` — a `None` (and, by Python
truthiness, a zero) limit leaves the selection untruncated. -/
def apply_limit (limit : Option Nat) (ms : List Meeting) : List Meeting :=
  match limit with
  | some k => if k ≠ 0 then ms.take k else ms
  | none => ms

/-- The list of meetings a batch run processes, in processing order. -/
def sync_all_order (allMeetings : List Meeting) (store : List MeetingRecording)
    (limit : Option Nat) : List Meeting :=
  apply_limit limit (sync_all_queryset allMeetings store)

/-- The statistics dict of `sync_all_recordings`. -/
structure SyncStats where
  processed : Nat
  found : Nat
  created : Nat
  updated : Nat
  errors : Nat
deriving DecidableEq, Repr

/-- One iteration of the batch loop: count the meeting as processed,
sync it, and on success classify created/updated by comparing the row's
`created_at` with the meeting's within 1 second.  The `except` branch
incrementing `errors` is unreachable because `sync_meeting_recording`
catches every exception itself. -/
def sync_all_step (env : GEnv) (now : Int)
    (acc : SyncStats × List MeetingRecording) (m : Meeting) :
    SyncStats × List MeetingRecording :=
  let stats := acc.1
  let stats := { stats with processed := stats.processed + 1 }
  match sync_meeting_recording env now m acc.2 with
  | (some r, store') =>
    let stats := { stats with found := stats.found + 1 }
    if (r.created_at - m.created_at).natAbs < 1 then
      ({ stats with created := stats.created + 1 }, store')
    else
      ({ stats with updated := stats.updated + 1 }, store')
  | (none, store') => (stats, store')

/-- `RecordingSyncService.sync_all_recordings`: select the pending
meetings, truncate by the limit, and reconcile them one by one,
aggregating statistics. -/
def sync_all_recordings (env : GEnv) (now : Int) (allMeetings : List Meeting)
    (store : List MeetingRecording) (limit : Option Nat) :
    SyncStats × List MeetingRecording :=
  (sync_all_order allMeetings store limit).foldl (sync_all_step env now)
    (⟨0, 0, 0, 0, 0⟩, store)

/-! ### Celery tasks (`meetings/tasks.py`) -/

/-- Outcome of one execution of a task's body: a normal return (with
whether a recording was found) or an exception. -/
inductive WorkOutcome where
  | done (recording_found : Bool)
  | raiseErr (msg : String)
deriving DecidableEq, Repr

/-- States a task instance passes through (Celery's task lifecycle as
abstracted by the spec). -/
inductive TaskState where
  | PENDING
  | RUNNING
  | RETRYING
  | SUCCESS
  | FAILED
deriving DecidableEq, Repr

/-- Terminal report of a task: the returned payload, `success: False`
with the captured error message modelling the FAILED report. -/
inductive TaskResult where
  | success (recording_found : Bool)
  | failure (msg : String)
deriving DecidableEq, Repr

/-- A complete task run: the state trace, the backoff delays slept
between attempts, and the terminal report. -/
structure TaskRun where
  trace : List TaskState
  delays : List Nat
  result : TaskResult
deriving DecidableEq, Repr

/-- Celery's `bind=True` retry loop as implemented in both tasks:
execute attempt `k` (`self.request.retries = k`); on an exception, if
retries remain, sleep `backoff k`, record RETRYING and re-run, else
report failure with this attempt's error message. -/
def runFrom (outcomes : Nat → WorkOutcome) (backoff : Nat → Nat)
    (k remaining : Nat) : List TaskState × List Nat × TaskResult :=
  match outcomes k with
  | .done f => ([.RUNNING, .SUCCESS], [], .success f)
  | .raiseErr msg =>
    match remaining with
    | 0 => ([.RUNNING, .FAILED], [], .failure msg)
    | r + 1 =>
      let rest := runFrom outcomes backoff (k + 1) r
      (.RUNNING :: .RETRYING :: rest.1, backoff k :: rest.2.1, rest.2.2)
termination_by remaining

/-- `sync_meeting_recording_task` (`max_retries=3`,
`countdown=60 * (self.request.retries + 1)`), abstracted over the
outcomes of its underlying work. -/
def sync_meeting_recording_task (outcomes : Nat → WorkOutcome) : TaskRun :=
  let core := runFrom outcomes (fun k => 60 * (k + 1)) 0 3
  ⟨.PENDING :: core.1, core.2.1, core.2.2⟩

/-- `sync_all_recordings_task` (`max_retries=2`, flat `countdown=300`),
abstracted over the outcomes of its underlying work. -/
def sync_all_recordings_task (outcomes : Nat → WorkOutcome) : TaskRun :=
  let core := runFrom outcomes (fun _ => 300) 0 2
  ⟨.PENDING :: core.1, core.2.1, core.2.2⟩

/-! ### The per-meeting sync endpoint (`meetings/views.py`) -/

/-- Response of `MeetingViewSet.sync_recording`: HTTP status and
whether a reconciliation task was enqueued. -/
structure ViewResponse where
  status : Nat
  enqueued : Bool
deriving DecidableEq, Repr

/-- `MeetingViewSet.sync_recording` (lines 281-307): reject with 400
when the meeting has no `scheduled_start`, otherwise enqueue
`sync_meeting_recording_task` and answer 202. -/
def sync_recording (m : Meeting) : ViewResponse :=
  if m.scheduled_start.isNone then ⟨400, false⟩ else ⟨202, true⟩

/-! ### Spec-side definitions -/

/-- The batch priority order as worded by the spec: conference-record
holders strictly before non-holders; within a group, more recent
scheduled-start first; meetings without scheduled-start last, by more
recent creation time (equal scheduled-starts also fall back to creation
time). -/
def spec_priority_le (a b : Meeting) : Prop :=
  (a.conference_record_id.isSome = true ∧ b.conference_record_id.isSome = false) ∨
  (a.conference_record_id.isSome = b.conference_record_id.isSome ∧
    ((∃ x y, a.scheduled_start = some x ∧ b.scheduled_start = some y ∧ y < x) ∨
     (a.scheduled_start.isSome = true ∧ b.scheduled_start = none) ∨
     (a.scheduled_start = b.scheduled_start ∧ b.created_at ≤ a.created_at)))

/-! ### Concrete instances used by witnesses and counterexamples -/

/-- An environment in which every external source is empty. -/
def idleEnv : GEnv where
  confClientAvailable := false
  driveListByCodeQuery := fun _ => .ok []
  driveListByEventProps := fun _ => .ok []
  driveListByEventName := fun _ => .ok []
  driveListByDateRange := fun _ _ => .ok []
  driveGetMetadata := fun _ => .error .driveError
  confListRecordings := fun _ => .ok []
  calendarGetEvent := fun _ => .error .otherError

/-- The file of the spec's join-code example. -/
def fileX : DriveFile :=
  ⟨some "fX", some "abc-defg-hij-extra (2025-01-01)"⟩

/-- A Drive corpus containing only `fileX`; the name-contains query is
evaluated over it the way the Drive search would. -/
def envFileX : GEnv :=
  { idleEnv with
    driveListByCodeQuery := fun code =>
      .ok ([fileX].filter (fun f => strContains (f.name.getD "") code)) }

/-- Environment whose event-id name query fails with quota exceeded. -/
def envQuota : GEnv :=
  { idleEnv with
    driveListByEventName := fun _ => .error .quotaExceeded }

/-- A meeting without a join link but with an external event id, so its
Drive lookup starts at the event-id search. -/
def mQuota : Meeting :=
  ⟨21, some "ev21", "", none, none, "CREATED", none, 500⟩

/-- A meeting with a creation timestamp but no scheduled start. -/
def mNoSched : Meeting :=
  ⟨7, some "ev7", "https://meet.google.com/abc-defg-hij", none, none,
   "CREATED", none, 100⟩

/-- A meeting with a scheduled start (for the amended C2 witness). -/
def mSched : Meeting :=
  ⟨8, some "ev8", "https://meet.google.com/abc-defg-hij", some 50, some 90,
   "SCHEDULED", none, 10⟩

/-- Spec example M1: conference-record id, scheduled yesterday. -/
def exM1 : Meeting :=
  ⟨1, none, "https://meet.google.com/aaa-bbbb-ccc", some (-86400), none,
   "SCHEDULED", some "cr1", -100000⟩

/-- Spec example M2: no conference-record id, scheduled today. -/
def exM2 : Meeting :=
  ⟨2, none, "https://meet.google.com/ddd-eeee-fff", some 0, none,
   "SCHEDULED", none, -100000⟩

/-- Spec example M3: no conference-record id, no scheduled start,
created today. -/
def exM3 : Meeting :=
  ⟨3, none, "https://meet.google.com/ggg-hhhh-iii", none, none,
   "CREATED", none, 0⟩

/-- Conference artifacts for the C7 witness: one not yet generated (with
the latest end time), two generated ones tying on nothing. -/
def artA : ApiRecording := ⟨some "da", some "ua", some "ENDED", some 1, some 99⟩

/-- Generated artifact with the earlier end time. -/
def artB : ApiRecording := ⟨some "db", some "ub", some "FILE_GENERATED", some 1, some 5⟩

/-- Generated artifact with the latest end time among generated ones. -/
def artC : ApiRecording := ⟨some "dc", some "uc", some "FILE_GENERATED", some 2, some 9⟩

/-- Environment serving the C7 witness artifacts. -/
def envConf : GEnv :=
  { idleEnv with
    confClientAvailable := true
    confListRecordings := fun _ => .ok [artA, artB, artC] }

/-- Meeting holding the conference record id for the C7 witness. -/
def mConf : Meeting :=
  ⟨31, none, "https://meet.google.com/jjj-kkkk-lll", some 0, some 10,
   "FINISHED", some "cr31", -5⟩

/-- Candidate data for the C1 witness (API shape). -/
def apiD : ApiRecording := ⟨some "fid1", some "https://drive.google.com/u", some "FILE_GENERATED", some 100, some 160⟩

/-- Candidate file for the C1 witness (Drive shape). -/
def driveF : DriveFile := ⟨some "fid2", some "abc-defg-hij (2025-01-01)"⟩

/-- Metadata of `driveF` for the C1 witness. -/
def mdF : FileMetadata := ⟨some 65000, some 1700, some "https://drive.google.com/v"⟩

/-- Environment able to serve the metadata of `driveF`. -/
def envMeta : GEnv :=
  { idleEnv with driveGetMetadata := fun _ => .ok mdF }

/-- Meeting used by the C1 witness. -/
def mRec : Meeting :=
  ⟨41, some "ev41", "https://meet.google.com/mmm-nnnn-ooo", some 0, some 10,
   "FINISHED", some "cr41", -5⟩

/-- An existing recording row (for the C10 witness). -/
def recExisting : MeetingRecording :=
  ⟨41, some "old", some "https://drive.google.com/w", some 7, none, none, none,
   some 3, 12⟩

/-- A meeting whose scheduled start lies in the future of `now = 0`. -/
def mFuture : Meeting :=
  ⟨9, some "ev9", "https://meet.google.com/ppp-qqqq-rrr", some 10, none,
   "SCHEDULED", none, 100⟩

/-- Work that fails with a distinct transient error on every attempt. -/
def alwaysRaise : Nat → WorkOutcome :=
  fun k => .raiseErr ("boom " ++ toString k)

/-! ## Lemmas about the generic sort -/

theorem mem_insertLe (le : α → α → Bool) (x : α) (l : List α) (a : α) :
    a ∈ insertLe le x l ↔ a = x ∨ a ∈ l := by
  induction l with
  | nil => simp [insertLe]
  | cons y ys ih =>
    simp only [insertLe]
    by_cases h : le x y
    · rw [if_pos h]
      simp [List.mem_cons]
    · rw [if_neg h]
      simp only [List.mem_cons, ih]
      tauto

theorem insertLe_ne_nil (le : α → α → Bool) (x : α) (l : List α) :
    insertLe le x l ≠ [] := by
  cases l with
  | nil => simp [insertLe]
  | cons y ys =>
    simp only [insertLe]
    split <;> simp

theorem head_sortLe (le : α → α → Bool) :
    ∀ l : List α, (sortLe le l).head? = firstLe le l
  | [] => rfl
  | x :: xs => by
    have ih := head_sortLe le xs
    simp only [sortLe, firstLe]
    cases hs : sortLe le xs with
    | nil =>
      rw [hs] at ih
      rw [← ih]
      simp [insertLe]
    | cons y ys =>
      rw [hs] at ih
      rw [← ih]
      simp only [insertLe]
      by_cases h : le x y
      · simp [h]
      · simp [h]

theorem firstLe_eq_none (le : α → α → Bool) :
    ∀ l : List α, firstLe le l = none ↔ l = []
  | [] => by simp [firstLe]
  | x :: xs => by
    simp only [firstLe]
    cases firstLe le xs with
    | none => simp
    | some m => by_cases h : le x m <;> simp [h]

theorem firstLe_mem (le : α → α → Bool) :
    ∀ (l : List α) (m : α), firstLe le l = some m → m ∈ l
  | [], m => by simp [firstLe]
  | x :: xs, m => by
    simp only [firstLe]
    cases h : firstLe le xs with
    | none => intro h'; simp at h'; simp [h']
    | some m' =>
      have hm' := firstLe_mem le xs m' h
      by_cases hle : le x m' <;> intro h' <;> simp [hle] at h' <;>
        simp [← h', hm']

theorem firstLe_le (le : α → α → Bool)
    (htot : ∀ a b, le a b = true ∨ le b a = true)
    (htrans : ∀ a b c, le a b = true → le b c = true → le a c = true) :
    ∀ (l : List α) (m : α), firstLe le l = some m → ∀ x ∈ l, le m x = true
  | [], m => by simp [firstLe]
  | a :: t, m => by
    simp only [firstLe]
    cases h : firstLe le t with
    | none =>
      intro h' x hx
      simp at h'
      rcases (firstLe_eq_none le t).mp h with rfl
      rcases List.mem_singleton.mp hx with rfl
      rw [← h']
      rcases htot x x with h'' | h'' <;> exact h''
    | some m' =>
      intro h' x hx
      have ih := firstLe_le le htot htrans t m' h
      by_cases hle : le a m' <;> simp [hle] at h' <;> subst h'
      · rcases List.mem_cons.mp hx with rfl | hx
        · rcases htot x x with h'' | h'' <;> exact h''
        · exact htrans _ _ _ hle (ih x hx)
      · rcases List.mem_cons.mp hx with rfl | hx
        · rcases htot m' x with h'' | h''
          · exact h''
          · exact absurd h'' hle
        · exact ih x hx

theorem firstLe_first (le : α → α → Bool) (m : α) :
    ∀ (l1 l2 : List α), firstLe le (l1 ++ m :: l2) = some m →
      m ∉ l1 → ∀ y ∈ l1, le y m = false := by
  intro l1
  induction l1 with
  | nil => intro l2 _ _ y hy; simp at hy
  | cons a l1 ih =>
    intro l2 hf hm y hy
    rcases h : firstLe le (l1 ++ m :: l2) with _ | m'
    · have : l1 ++ m :: l2 = [] := (firstLe_eq_none le _).mp h
      simp at this
    · have h1 : firstLe le (a :: (l1 ++ m :: l2))
          = (if le a m' then some a else some m') := by
        simp only [firstLe]
        rw [h]
      have hf2 : firstLe le (a :: (l1 ++ m :: l2)) = some m := hf
      rw [h1] at hf2
      have hma : m ≠ a := fun e => hm (by simp [e])
      by_cases hle : le a m'
      · rw [if_pos hle] at hf2
        exact absurd (Option.some.inj hf2).symm hma
      · rw [if_neg hle] at hf2
        have hmm : m' = m := Option.some.inj hf2
        rw [hmm] at h hle
        rcases List.mem_cons.mp hy with h2 | h2
        · rw [h2]
          exact Bool.eq_false_iff.mpr hle
        · exact ih l2 h (fun c => hm (List.mem_cons_of_mem a c)) y h2

theorem pairwise_insertLe (le : α → α → Bool)
    (htot : ∀ a b, le a b = true ∨ le b a = true)
    (htrans : ∀ a b c, le a b = true → le b c = true → le a c = true) (x : α)
    (l : List α) (hp : List.Pairwise (fun a b => le a b = true) l) :
    List.Pairwise (fun a b => le a b = true) (insertLe le x l) := by
  induction hp with
  | nil => simp [insertLe]
  | @cons y ys hy hys ih =>
    simp only [insertLe]
    by_cases hxy : le x y
    · rw [if_pos hxy]
      refine List.pairwise_cons.mpr ⟨?_, List.pairwise_cons.mpr ⟨hy, hys⟩⟩
      intro z hz
      rcases List.mem_cons.mp hz with h1 | h1
      · rw [h1]
        exact hxy
      · exact htrans x y z hxy (hy z h1)
    · rw [if_neg hxy]
      refine List.pairwise_cons.mpr ⟨?_, ih⟩
      intro z hz
      rcases (mem_insertLe le x ys z).mp hz with h1 | h1
      · rw [h1]
        rcases htot x y with h' | h'
        · exact absurd h' hxy
        · exact h'
      · exact hy z h1

theorem pairwise_sortLe (le : α → α → Bool)
    (htot : ∀ a b, le a b = true ∨ le b a = true)
    (htrans : ∀ a b c, le a b = true → le b c = true → le a c = true)
    (l : List α) : List.Pairwise (fun a b => le a b = true) (sortLe le l) := by
  induction l with
  | nil => simp [sortLe]
  | cons x xs ih => exact pairwise_insertLe le htot htrans x _ ih

/-! ## Lemmas about the comparators -/

theorem optIntLe_total (a b : Option Int) :
    optIntLe a b = true ∨ optIntLe b a = true := by
  rcases a with _ | x <;> rcases b with _ | y <;> simp [optIntLe] <;> omega

theorem optIntLe_trans (a b c : Option Int) (h1 : optIntLe a b = true)
    (h2 : optIntLe b c = true) : optIntLe a c = true := by
  rcases a with _ | x <;> rcases b with _ | y <;> rcases c with _ | z <;>
    simp [optIntLe] at * <;> omega

theorem apiRecGe_total (a b : ApiRecording) :
    apiRecGe a b = true ∨ apiRecGe b a = true := by
  unfold apiRecGe
  rcases optIntLe_total a.endTime b.endTime with h | h <;> simp [h]

theorem apiRecGe_trans (a b c : ApiRecording) (h1 : apiRecGe a b = true)
    (h2 : apiRecGe b c = true) : apiRecGe a c = true :=
  optIntLe_trans _ _ _ h2 h1

theorem meeting_priority_le_total (a b : Meeting) :
    meeting_priority_le a b = true ∨ meeting_priority_le b a = true := by
  by_cases h0 : confRank a < confRank b
  · left
    simp [meeting_priority_le, h0]
  · by_cases h1 : confRank b < confRank a
    · right
      simp [meeting_priority_le, h1]
    · rcases ha : a.scheduled_start with _ | x <;>
        rcases hb : b.scheduled_start with _ | y <;>
        simp [meeting_priority_le, h0, h1, ha, hb] <;> omega

set_option maxHeartbeats 1000000 in
theorem meeting_priority_le_trans (a b c : Meeting)
    (h1 : meeting_priority_le a b = true)
    (h2 : meeting_priority_le b c = true) :
    meeting_priority_le a c = true := by
  unfold meeting_priority_le at h1 h2 ⊢
  rcases ha : a.scheduled_start with _ | x <;>
    rcases hb : b.scheduled_start with _ | y <;>
    rcases hc : c.scheduled_start with _ | z <;>
    split_ifs at h1 h2 ⊢ <;>
    (try simp_all) <;> omega

theorem meeting_priority_le_spec (a b : Meeting)
    (h : meeting_priority_le a b = true) : spec_priority_le a b := by
  unfold meeting_priority_le at h
  unfold spec_priority_le
  by_cases h0 : confRank a < confRank b
  · left
    unfold confRank at h0
    by_cases hA : a.conference_record_id.isSome <;>
      by_cases hB : b.conference_record_id.isSome <;>
      simp [hA, hB] at h0 ⊢
  · rw [if_neg h0] at h
    by_cases h1 : confRank b < confRank a
    · rw [if_pos h1] at h
      simp at h
    · rw [if_neg h1] at h
      right
      have hAB : a.conference_record_id.isSome = b.conference_record_id.isSome := by
        unfold confRank at h0 h1
        by_cases hA : a.conference_record_id.isSome <;>
          by_cases hB : b.conference_record_id.isSome <;>
          simp [hA, hB] at h0 h1 ⊢
      refine ⟨hAB, ?_⟩
      rcases ha : a.scheduled_start with _ | x <;>
        rcases hb : b.scheduled_start with _ | y <;>
        (try rw [ha] at h) <;> (try rw [hb] at h)
      · right; right
        simp at h
        exact ⟨rfl, h⟩
      · simp at h
      · right; left
        simp
      · have h' : (if y < x then true else if x < y then false
            else decide (b.created_at ≤ a.created_at)) = true := h
        by_cases hyx : y < x
        · left
          exact ⟨x, y, rfl, rfl, hyx⟩
        · rw [if_neg hyx] at h'
          by_cases hxy : x < y
          · rw [if_pos hxy] at h'
            simp at h'
          · rw [if_neg hxy] at h'
            right; right
            have hxye : x = y := by omega
            simp at h'
            exact ⟨by rw [hxye], h'⟩

theorem find?_update (mid : Nat) (ap : MeetingRecording → MeetingRecording)
    (hpre : ∀ r, (ap r).meetingId = r.meetingId) (s : List MeetingRecording) :
    ∀ old : MeetingRecording,
      s.find? (fun r => r.meetingId == mid) = some old →
      (s.map (fun r => if r.meetingId == mid then ap r else r)).find?
        (fun r => r.meetingId == mid) = some (ap old) := by
  induction s with
  | nil => intro old h; simp at h
  | cons a s ih =>
    intro old h
    by_cases ha : (a.meetingId == mid) = true
    · have ha' : ((ap a).meetingId == mid) = true := by
        rw [hpre a]; exact ha
      simp only [List.find?_cons, ha] at h
      simp only [List.map_cons]
      rw [if_pos ha]
      simp only [List.find?_cons, ha']
      rw [Option.some.inj h]
    · have ha2 : (a.meetingId == mid) = false := by simpa using ha
      simp only [List.find?_cons, ha2] at h
      simp only [List.map_cons]
      rw [if_neg ha]
      simp only [List.find?_cons, ha2]
      exact ih old h

theorem filter_update_length (mid : Nat)
    (ap : MeetingRecording → MeetingRecording)
    (hpre : ∀ r, (ap r).meetingId = r.meetingId) (s : List MeetingRecording) :
    ((s.map (fun r => if r.meetingId == mid then ap r else r)).filter
        (fun r => r.meetingId == mid)).length
      = (s.filter (fun r => r.meetingId == mid)).length := by
  induction s with
  | nil => simp
  | cons a s ih =>
    by_cases ha : (a.meetingId == mid) = true
    · have ha' : ((ap a).meetingId == mid) = true := by
        rw [hpre a]; exact ha
      simp only [List.map_cons]
      rw [if_pos ha]
      rw [List.filter_cons, List.filter_cons, if_pos ha', if_pos ha]
      simp only [List.length_cons]
      rw [ih]
    · simp only [List.map_cons]
      rw [if_neg ha]
      rw [List.filter_cons, List.filter_cons, if_neg ha, if_neg ha]
      exact ih

theorem filter_update_frame (mid : Nat)
    (ap : MeetingRecording → MeetingRecording)
    (hpre : ∀ r, (ap r).meetingId = r.meetingId) (s : List MeetingRecording) :
    (s.map (fun r => if r.meetingId == mid then ap r else r)).filter
        (fun r => !(r.meetingId == mid))
      = s.filter (fun r => !(r.meetingId == mid)) := by
  induction s with
  | nil => simp
  | cons a s ih =>
    by_cases ha : (a.meetingId == mid) = true
    · have ha' : ((ap a).meetingId == mid) = true := by
        rw [hpre a]; exact ha
      simp only [List.map_cons]
      rw [if_pos ha]
      rw [List.filter_cons, List.filter_cons,
        if_neg (show ¬((!((ap a).meetingId == mid)) = true) from by simp [ha']),
        if_neg (show ¬((!(a.meetingId == mid)) = true) from by simp [ha])]
      exact ih
    · have ha2 : (a.meetingId == mid) = false := by simpa using ha
      simp only [List.map_cons]
      rw [if_neg ha]
      rw [List.filter_cons, List.filter_cons,
        if_pos (show (!(a.meetingId == mid)) = true from by simp [ha2]),
        if_pos (show (!(a.meetingId == mid)) = true from by simp [ha2])]
      rw [ih]

/-! ## Lemmas about `upsert_recording` -/

theorem upsert_recording_find (now : Int) (mid : Nat)
    (ap : MeetingRecording → MeetingRecording)
    (hpre : ∀ r, (ap r).meetingId = r.meetingId) (s : List MeetingRecording) :
    (upsert_recording now mid ap s).2.find? (fun r => r.meetingId == mid)
      = some (upsert_recording now mid ap s).1 := by
  unfold upsert_recording
  cases h : s.find? (fun r => r.meetingId == mid) with
  | some old =>
    exact find?_update mid ap hpre s old h
  | none =>
    simp only [List.find?_append, h, Option.none_or]
    have hnr : ((ap (emptyRecording mid now)).meetingId == mid) = true := by
      rw [hpre (emptyRecording mid now)]
      exact beq_self_eq_true mid
    simp [List.find?_cons, hnr]

theorem upsert_recording_count (now : Int) (mid : Nat)
    (ap : MeetingRecording → MeetingRecording)
    (hpre : ∀ r, (ap r).meetingId = r.meetingId) (s : List MeetingRecording)
    (hcount : (s.filter (fun r => r.meetingId == mid)).length ≤ 1) :
    ((upsert_recording now mid ap s).2.filter
      (fun r => r.meetingId == mid)).length = 1 := by
  unfold upsert_recording
  cases h : s.find? (fun r => r.meetingId == mid) with
  | some old =>
    rw [filter_update_length mid ap hpre s]
    have hpold := List.find?_some h
    have hmem : old ∈ s.filter (fun r => r.meetingId == mid) :=
      List.mem_filter.mpr ⟨List.mem_of_find?_eq_some h, hpold⟩
    have : 0 < (s.filter (fun r => r.meetingId == mid)).length :=
      List.length_pos.mpr (fun e => by rw [e] at hmem; simp at hmem)
    omega
  | none =>
    have hnil : s.filter (fun r => r.meetingId == mid) = [] := by
      rw [List.filter_eq_nil_iff]
      exact fun x hx => List.find?_eq_none.mp h x hx
    have hnr : ((ap (emptyRecording mid now)).meetingId == mid) = true := by
      rw [hpre (emptyRecording mid now)]
      exact beq_self_eq_true mid
    simp [List.filter_append, hnil, List.filter_cons, hnr]

theorem upsert_recording_frame (now : Int) (mid : Nat)
    (ap : MeetingRecording → MeetingRecording)
    (hpre : ∀ r, (ap r).meetingId = r.meetingId) (s : List MeetingRecording) :
    (upsert_recording now mid ap s).2.filter (fun r => !(r.meetingId == mid))
      = s.filter (fun r => !(r.meetingId == mid)) := by
  unfold upsert_recording
  cases h : s.find? (fun r => r.meetingId == mid) with
  | some old =>
    exact filter_update_frame mid ap hpre s
  | none =>
    have hnr : ((ap (emptyRecording mid now)).meetingId == mid) = true := by
      rw [hpre (emptyRecording mid now)]
      exact beq_self_eq_true mid
    simp [List.filter_append, List.filter_cons, hnr]

theorem apiDefaults_meetingId (d : ApiRecording) (r : MeetingRecording) :
    (apiDefaults d r).meetingId = r.meetingId := rfl

theorem driveDefaults_meetingId (fid : String) (md : FileMetadata)
    (r : MeetingRecording) : (driveDefaults fid md r).meetingId = r.meetingId :=
  rfl

/-! ## Claim theorems -/

/-- C10: for every meeting that already has an associated Recording, the
single-meeting reconciliation returns that existing Recording
immediately and unchanged, for every external environment (so no lookup
of any source can influence the outcome) and with the persisted store
left identical. -/
theorem C10_existing_recording_is_returned_unchanged (env : GEnv) (now : Int)
    (m : Meeting) (store : List MeetingRecording) (r : MeetingRecording)
    (h : store.find? (fun rec => rec.meetingId == m.id) = some r) :
    sync_meeting_recording env now m store = (some r, store) := by
  unfold sync_meeting_recording
  rw [h]

theorem C10_witness :
    [recExisting].find? (fun rec => rec.meetingId == mRec.id) = some recExisting
    ∧ sync_meeting_recording idleEnv 0 mRec [recExisting]
        = (some recExisting, [recExisting]) :=
  ⟨rfl,
   C10_existing_recording_is_returned_unchanged idleEnv 0 mRec [recExisting]
     recExisting rfl⟩

/-- C2, counterexample: `mNoSched` has a creation timestamp (100) and no
scheduled start, yet the per-meeting sync endpoint answers 400 and
enqueues nothing — refuting the claim that such a request is accepted
and a reconciliation task enqueued. -/
theorem C2_counterexample :
    mNoSched.scheduled_start = none ∧ mNoSched.created_at = 100
    ∧ sync_recording mNoSched = ⟨400, false⟩ :=
  ⟨rfl, rfl, rfl⟩

/-- C2, amended: the endpoint rejects with a 400 and enqueues nothing
exactly when the meeting has no scheduled start (regardless of its
creation timestamp, which is always present); otherwise it answers 202
and enqueues the task. -/
theorem C2_amended_reject_iff_no_scheduled_start (m : Meeting) :
    (sync_recording m = ⟨400, false⟩ ↔ m.scheduled_start = none)
    ∧ (sync_recording m = ⟨202, true⟩ ↔ m.scheduled_start ≠ none) := by
  unfold sync_recording
  rcases h : m.scheduled_start with _ | s <;>
    simp [h, ViewResponse.mk.injEq]

/-- C6: when the scheduled start is absent or in the future (relative to
`now`), the date-window strategy uses `[created_at - 1h, created_at + 2h]`;
the scheduled-start window `[start - 5min, end + 15min]`
(`[start - 5min, start + 2h]` without an end) is used only when the
scheduled start exists and is not in the future. -/
theorem C6_window_fallback (now : Int) (m : Meeting) :
    ((m.scheduled_start = none ∨ (∃ s, m.scheduled_start = some s ∧ now < s)) →
      date_window now m = (m.created_at - 3600, m.created_at + 7200))
    ∧ (∀ s e, m.scheduled_start = some s → s ≤ now → m.scheduled_end = some e →
      date_window now m = (s - 300, e + 900))
    ∧ (∀ s, m.scheduled_start = some s → s ≤ now → m.scheduled_end = none →
      date_window now m = (s - 300, s + 7200)) := by
  refine ⟨?_, ?_, ?_⟩
  · rintro (h | ⟨s, hs, hfut⟩)
    · simp only [date_window, h]
    · simp only [date_window, hs]
      rw [if_neg (by omega)]
  · intro s e hs hsle he
    simp only [date_window, hs, he]
    rw [if_pos hsle]
  · intro s hs hsle he
    simp only [date_window, hs, he]
    rw [if_pos hsle]

theorem C6_witness :
    (mFuture.scheduled_start = none
      ∨ ∃ s, mFuture.scheduled_start = some s ∧ (0 : Int) < s)
    ∧ date_window 0 mFuture
        = (mFuture.created_at - 3600, mFuture.created_at + 7200) :=
  ⟨Or.inr ⟨10, rfl, by decide⟩,
   (C6_window_fallback 0 mFuture).1 (Or.inr ⟨10, rfl, by decide⟩)⟩

/-- C5: the join-code search accepts a file only when its name starts
with the meeting code; in particular the spec's example file
"abc-defg-hij-extra (2025-01-01)" is not matched by the inner code
"defg-hij" but is matched by the full code "abc-defg-hij". -/
theorem C5_join_code_strict_prefix :
    (∀ (env : GEnv) (code : String) (f : DriveFile),
        search_recording_by_meeting_code env code = .ok (some f) →
        strStartsWith (f.name.getD "") code = true)
    ∧ search_recording_by_meeting_code envFileX "defg-hij" = .ok none
    ∧ search_recording_by_meeting_code envFileX "abc-defg-hij" = .ok (some fileX) := by
  refine ⟨?_, by rfl, by rfl⟩
  intro env code f h
  unfold search_recording_by_meeting_code at h
  rcases hq : env.driveListByCodeQuery code with e | files <;> rw [hq] at h
  · simp at h
  · have h2 : (if files.isEmpty then (Except.ok none : Except GError (Option DriveFile))
        else match files.filter (fun g => strStartsWith (g.name.getD "") code) with
          | [] => .ok none
          | m :: _ => .ok (some m)) = .ok (some f) := h
    by_cases he : files.isEmpty
    · rw [if_pos he] at h2
      simp at h2
    · rw [if_neg he] at h2
      rcases hf : files.filter (fun g => strStartsWith (g.name.getD "") code) with
        _ | ⟨mf, rest⟩ <;> rw [hf] at h2
      · simp at h2
      · simp at h2
        have hm : mf ∈ files.filter (fun g => strStartsWith (g.name.getD "") code) := by
          rw [hf]
          exact List.mem_cons_self mf rest
        have hsw := (List.mem_filter.mp hm).2
        rwa [h2] at hsw

theorem C5_witness :
    search_recording_by_meeting_code envFileX "abc-defg-hij" = .ok (some fileX)
    ∧ strStartsWith (fileX.name.getD "") "abc-defg-hij" = true :=
  ⟨by rfl,
   C5_join_code_strict_prefix.1 envFileX "abc-defg-hij" fileX (by rfl)⟩

/-- C8: a single-meeting task whose work raises on every attempt runs
PENDING, then four RUNNING executions separated by three RETRYING
transitions with backoff delays 60 s, 120 s, 180 s (60 s x attempt
number, capped at 3 retries), and terminates FAILED reporting the last
attempt's error; a batch task does the same with flat 300 s delays and
2 retries. -/
theorem C8_retry_exhaustion (w b : Nat → WorkOutcome) (mw mb : Nat → String)
    (hw : ∀ k, w k = .raiseErr (mw k)) (hb : ∀ k, b k = .raiseErr (mb k)) :
    sync_meeting_recording_task w =
      ⟨[.PENDING, .RUNNING, .RETRYING, .RUNNING, .RETRYING, .RUNNING,
        .RETRYING, .RUNNING, .FAILED], [60, 120, 180], .failure (mw 3)⟩
    ∧ sync_all_recordings_task b =
      ⟨[.PENDING, .RUNNING, .RETRYING, .RUNNING, .RETRYING, .RUNNING,
        .FAILED], [300, 300], .failure (mb 2)⟩ := by
  constructor <;>
    simp [sync_meeting_recording_task, sync_all_recordings_task, runFrom,
      hw, hb]

theorem C8_witness :
    sync_meeting_recording_task alwaysRaise =
      ⟨[.PENDING, .RUNNING, .RETRYING, .RUNNING, .RETRYING, .RUNNING,
        .RETRYING, .RUNNING, .FAILED], [60, 120, 180],
        .failure ("boom " ++ toString 3)⟩
    ∧ sync_all_recordings_task alwaysRaise =
      ⟨[.PENDING, .RUNNING, .RETRYING, .RUNNING, .RETRYING, .RUNNING,
        .FAILED], [300, 300], .failure ("boom " ++ toString 2)⟩ :=
  C8_retry_exhaustion alwaysRaise alwaysRaise
    (fun k => "boom " ++ toString k) (fun k => "boom " ++ toString k)
    (fun _ => rfl) (fun _ => rfl)

/-- C7: whenever the authoritative lookup selects a recording, that
recording is a FILE_GENERATED artifact of the conference record's
listing, no FILE_GENERATED artifact in the listing has a later
end-timestamp, and every FILE_GENERATED artifact listed before it has a
strictly earlier end-timestamp (so ties go to the original listing
order). -/
theorem C7_conference_pick_latest_generated (env : GEnv) (m : Meeting)
    (raw : List ApiRecording) (r : ApiRecording)
    (hraw : env.confListRecordings
        ("conferenceRecords/" ++ m.conference_record_id.getD "") = .ok raw)
    (hfind : find_recording_from_conference_record env m = some r) :
    r.state = some "FILE_GENERATED"
    ∧ r ∈ raw
    ∧ (∀ x ∈ raw, x.state = some "FILE_GENERATED" →
        optIntLe x.endTime r.endTime = true)
    ∧ (∀ l1 l2, raw.filter (fun x => x.state == some "FILE_GENERATED")
          = l1 ++ r :: l2 → r ∉ l1 →
        ∀ y ∈ l1, optIntLe r.endTime y.endTime = false) := by
  unfold find_recording_from_conference_record at hfind
  by_cases hg : optTruthy m.conference_record_id = true ∧ env.confClientAvailable = true
  · rw [if_pos hg] at hfind
    have hlist : list_recordings env
        ("conferenceRecords/" ++ m.conference_record_id.getD "") true
        = .ok (raw.filter (fun x => x.state == some "FILE_GENERATED")) := by
      unfold list_recordings
      rw [hraw]
      rfl
    rw [hlist] at hfind
    have h2 : (sortLe apiRecGe
        (raw.filter (fun x => x.state == some "FILE_GENERATED"))).head?
        = some r := hfind
    rw [head_sortLe] at h2
    have hmem := firstLe_mem apiRecGe _ r h2
    have hstate : (r.state == some "FILE_GENERATED") = true :=
      (List.mem_filter.mp hmem).2
    refine ⟨by simpa using hstate, (List.mem_filter.mp hmem).1, ?_, ?_⟩
    · intro x hx hxs
      have hxg : x ∈ raw.filter (fun z => z.state == some "FILE_GENERATED") :=
        List.mem_filter.mpr ⟨hx, by simp [hxs]⟩
      exact firstLe_le apiRecGe apiRecGe_total apiRecGe_trans _ r h2 x hxg
    · intro l1 l2 heq hnot y hy
      rw [heq] at h2
      exact firstLe_first apiRecGe r l1 l2 h2 hnot y hy
  · rw [if_neg hg] at hfind
    simp at hfind

theorem C7_witness :
    artC.state = some "FILE_GENERATED"
    ∧ artC ∈ [artA, artB, artC]
    ∧ (∀ x ∈ [artA, artB, artC], x.state = some "FILE_GENERATED" →
        optIntLe x.endTime artC.endTime = true)
    ∧ (∀ l1 l2, [artA, artB, artC].filter
          (fun x => x.state == some "FILE_GENERATED") = l1 ++ artC :: l2 →
        artC ∉ l1 → ∀ y ∈ l1, optIntLe artC.endTime y.endTime = false) :=
  C7_conference_pick_latest_generated envConf mConf [artA, artB, artC] artC
    rfl rfl

/-- C3: every batch run processes its selection in the spec's priority
order — conference-record holders first, then most recent scheduled
start (absent ones last), then most recent creation time — and on the
spec's example (M2, M3, M1 in store order) the processing order is
M1, M2, M3. -/
theorem C3_batch_priority_order :
    (∀ (allMeetings : List Meeting) (store : List MeetingRecording)
        (limit : Option Nat),
      List.Pairwise spec_priority_le (sync_all_order allMeetings store limit))
    ∧ sync_all_order [exM2, exM3, exM1] [] none = [exM1, exM2, exM3] := by
  constructor
  · intro allMeetings store limit
    have hp : List.Pairwise (fun a b => meeting_priority_le a b = true)
        (sync_all_queryset allMeetings store) :=
      pairwise_sortLe meeting_priority_le meeting_priority_le_total
        meeting_priority_le_trans _
    have hsub : (sync_all_order allMeetings store limit).Sublist
        (sync_all_queryset allMeetings store) := by
      rcases limit with _ | k
      · exact List.Sublist.refl _
      · have he : sync_all_order allMeetings store (some k)
            = if k ≠ 0 then (sync_all_queryset allMeetings store).take k
              else sync_all_queryset allMeetings store := rfl
        rw [he]
        by_cases hk : k ≠ 0
        · rw [if_pos hk]
          exact List.take_sublist _ _
        · rw [if_neg hk]
    exact (hp.sublist hsub).imp (fun h => meeting_priority_le_spec _ _ h)
  · decide

/-- Delta form of the batch loop invariant: folding the per-meeting step
over any meeting list adds one `processed` per meeting, leaves `errors`
unchanged (the loop's own handler is unreachable because
`sync_meeting_recording` catches everything), and adds `found` at most
once per meeting, split exactly into `created` or `updated`. -/
theorem sync_all_fold_delta (env : GEnv) (now : Int) :
    ∀ (ms : List Meeting) (st : List MeetingRecording) (s0 : SyncStats),
      ∃ df dc du,
        (ms.foldl (sync_all_step env now) (s0, st)).1.processed
            = s0.processed + ms.length
        ∧ (ms.foldl (sync_all_step env now) (s0, st)).1.found = s0.found + df
        ∧ (ms.foldl (sync_all_step env now) (s0, st)).1.created = s0.created + dc
        ∧ (ms.foldl (sync_all_step env now) (s0, st)).1.updated = s0.updated + du
        ∧ (ms.foldl (sync_all_step env now) (s0, st)).1.errors = s0.errors
        ∧ dc + du = df ∧ df ≤ ms.length := by
  intro ms
  induction ms with
  | nil =>
    intro st s0
    refine ⟨0, 0, 0, ?_⟩
    simp
  | cons mm ms ih =>
    intro st s0
    rw [List.foldl_cons]
    have hstep : (sync_all_step env now (s0, st) mm).1.processed = s0.processed + 1
        ∧ (sync_all_step env now (s0, st) mm).1.errors = s0.errors
        ∧ (((sync_all_step env now (s0, st) mm).1.found = s0.found + 1
              ∧ (sync_all_step env now (s0, st) mm).1.created = s0.created + 1
              ∧ (sync_all_step env now (s0, st) mm).1.updated = s0.updated)
          ∨ ((sync_all_step env now (s0, st) mm).1.found = s0.found + 1
              ∧ (sync_all_step env now (s0, st) mm).1.created = s0.created
              ∧ (sync_all_step env now (s0, st) mm).1.updated = s0.updated + 1)
          ∨ ((sync_all_step env now (s0, st) mm).1.found = s0.found
              ∧ (sync_all_step env now (s0, st) mm).1.created = s0.created
              ∧ (sync_all_step env now (s0, st) mm).1.updated = s0.updated)) := by
      unfold sync_all_step
      rcases hs : sync_meeting_recording env now mm st with ⟨o, st'⟩
      rcases o with _ | r
      · simp [hs]
      · by_cases hd : (r.created_at - mm.created_at).natAbs < 1
        · simp [hs, hd]
        · simp [hs, hd]
    obtain ⟨h1, h2, h3⟩ := hstep
    obtain ⟨df, dc, du, g1, g2, g3, g4, g5, g6, g7⟩ :=
      ih (sync_all_step env now (s0, st) mm).2 (sync_all_step env now (s0, st) mm).1
    rw [Prod.mk.eta] at g1 g2 g3 g4 g5
    rcases h3 with ⟨f1, c1, u1⟩ | ⟨f1, c1, u1⟩ | ⟨f1, c1, u1⟩
    · exact ⟨df + 1, dc + 1, du, by rw [g1, h1]; simp; omega,
        by rw [g2, f1]; omega, by rw [g3, c1]; omega, by rw [g4, u1],
        by rw [g5, h2], by omega, by simp; omega⟩
    · exact ⟨df + 1, dc, du + 1, by rw [g1, h1]; simp; omega,
        by rw [g2, f1]; omega, by rw [g3, c1], by rw [g4, u1]; omega,
        by rw [g5, h2], by omega, by simp; omega⟩
    · exact ⟨df, dc, du, by rw [g1, h1]; simp; omega,
        by rw [g2, f1], by rw [g3, c1], by rw [g4, u1],
        by rw [g5, h2], by omega, by simp; omega⟩

/-- C9: the statistics of a completed batch run satisfy
`created + updated = found`, `found + errors ≤ processed`, `processed`
equals the number of selected meetings, and `processed` is at most any
supplied positive limit. -/
theorem C9_stats_invariant (env : GEnv) (now : Int)
    (allMeetings : List Meeting) (store : List MeetingRecording)
    (limit : Option Nat) :
    (sync_all_recordings env now allMeetings store limit).1.created
        + (sync_all_recordings env now allMeetings store limit).1.updated
      = (sync_all_recordings env now allMeetings store limit).1.found
    ∧ (sync_all_recordings env now allMeetings store limit).1.found
        + (sync_all_recordings env now allMeetings store limit).1.errors
      ≤ (sync_all_recordings env now allMeetings store limit).1.processed
    ∧ (sync_all_recordings env now allMeetings store limit).1.processed
      = (sync_all_order allMeetings store limit).length
    ∧ (∀ k, limit = some k → 0 < k →
        (sync_all_recordings env now allMeetings store limit).1.processed ≤ k) := by
  obtain ⟨df, dc, du, h1, h2, h3, h4, h5, h6, h7⟩ :=
    sync_all_fold_delta env now (sync_all_order allMeetings store limit) store
      ⟨0, 0, 0, 0, 0⟩
  unfold sync_all_recordings
  refine ⟨?_, ?_, ?_, ?_⟩
  · rw [h2, h3, h4]
    simp
    omega
  · rw [h2, h5, h1]
    simp
    omega
  · rw [h1]
    simp
  · intro k hk hkpos
    rw [h1]
    subst hk
    have : (sync_all_order allMeetings store (some k)).length ≤ k := by
      have he : sync_all_order allMeetings store (some k)
          = if k ≠ 0 then (sync_all_queryset allMeetings store).take k
            else sync_all_queryset allMeetings store := rfl
      rw [he, if_pos (by omega : k ≠ 0), List.length_take]
      exact min_le_left _ _
    simp
    omega

theorem C9_witness :
    (sync_all_recordings idleEnv 0 [exM1, exM3] [] (some 1)).1.created
        + (sync_all_recordings idleEnv 0 [exM1, exM3] [] (some 1)).1.updated
      = (sync_all_recordings idleEnv 0 [exM1, exM3] [] (some 1)).1.found
    ∧ (sync_all_recordings idleEnv 0 [exM1, exM3] [] (some 1)).1.found
        + (sync_all_recordings idleEnv 0 [exM1, exM3] [] (some 1)).1.errors
      ≤ (sync_all_recordings idleEnv 0 [exM1, exM3] [] (some 1)).1.processed
    ∧ (sync_all_recordings idleEnv 0 [exM1, exM3] [] (some 1)).1.processed
      = (sync_all_order [exM1, exM3] [] (some 1)).length
    ∧ (∀ k, (some 1 : Option Nat) = some k → 0 < k →
        (sync_all_recordings idleEnv 0 [exM1, exM3] [] (some 1)).1.processed ≤ k) :=
  C9_stats_invariant idleEnv 0 [exM1, exM3] [] (some 1)

/-- C4, counterexample: in `envQuota` the event-id lookup for `mQuota`
raises QuotaExceeded, yet the batch over `[mQuota]` reports
`errors = 0`: the failure is degraded to a not-found outcome instead of
being counted at the meeting's entry in the batch statistics. -/
theorem C4_counterexample :
    envQuota.driveListByEventName "ev21" = .error .quotaExceeded
    ∧ (sync_all_recordings envQuota 0 [mQuota] [] none).1 = ⟨1, 0, 0, 0, 0⟩ :=
  ⟨rfl, rfl⟩

/-- C4, amended: a quota-exceeded failure raised by the event-id Drive
search does abort the remaining strategies of that meeting's lookup
(the result does not depend on the date-range source, which stays
universally quantified), but it is caught inside
`sync_meeting_recording` and degraded to a not-found outcome with the
store untouched; the batch counts the meeting only in `processed`,
leaving `errors` at 0. -/
theorem C4_quota_degraded_not_counted (env : GEnv) (now : Int) (m : Meeting)
    (store : List MeetingRecording) (eid : String)
    (hcr : m.conference_record_id = none)
    (hmc : m.meet_link = "" ∨ extract_meeting_code m.meet_link = ""
        ∨ (extract_meeting_code m.meet_link).length ≤ 5)
    (hev : m.google_event_id = some eid) (heid : eid ≠ "")
    (hprops : env.driveListByEventProps eid = .ok [])
    (hname : env.driveListByEventName eid = .error .quotaExceeded)
    (hnorec : store.find? (fun r => r.meetingId == m.id) = none) :
    sync_meeting_recording env now m store = (none, store)
    ∧ (sync_all_recordings env now [m] store none).1 = ⟨1, 0, 0, 0, 0⟩ := by
  have hsearch : search_recording_by_event_id env eid = .error .quotaExceeded := by
    unfold search_recording_by_event_id
    simp only [hprops, hname]
  have hdrive : find_recording_in_drive env now m = (none : Option DriveFile) := by
    unfold find_recording_in_drive
    have hs1 : (if m.meet_link ≠ "" then
        if extract_meeting_code m.meet_link ≠ ""
            ∧ 5 < (extract_meeting_code m.meet_link).length then
          match search_recording_by_meeting_code env
              (extract_meeting_code m.meet_link) with
          | .ok (some f) => some f
          | _ => none
        else none
      else (none : Option DriveFile)) = none := by
      rcases hmc with h | h | h
      · rw [if_neg (by simp [h])]
      · rw [if_neg (show ¬ (extract_meeting_code m.meet_link ≠ ""
            ∧ 5 < (extract_meeting_code m.meet_link).length) from by
          simp [h])]
        split <;> rfl
      · rw [if_neg (show ¬ (extract_meeting_code m.meet_link ≠ ""
            ∧ 5 < (extract_meeting_code m.meet_link).length) from by
          omega)]
        split <;> rfl
    rw [hs1]
    simp only [hev]
    rw [if_pos (by simp [optTruthy, heid])]
    simp only [Option.getD_some, hsearch]
  have hsync : sync_meeting_recording env now m store = (none, store) := by
    unfold sync_meeting_recording
    rw [hnorec]
    rw [if_neg (by simp [hcr, optTruthy])]
    rw [hdrive]
  refine ⟨hsync, ?_⟩
  have horder : sync_all_order [m] store none = [m] := by
    have he : sync_all_order [m] store none = sync_all_queryset [m] store := rfl
    rw [he]
    unfold sync_all_queryset
    rw [List.filter_cons, if_pos (by simp [hnorec])]
    rfl
  unfold sync_all_recordings
  rw [horder]
  simp [sync_all_step, hsync]

theorem C4_witness :
    envQuota.driveListByEventProps "ev21" = .ok []
    ∧ envQuota.driveListByEventName "ev21" = .error .quotaExceeded
    ∧ sync_meeting_recording envQuota 0 mQuota [] = (none, [])
    ∧ (sync_all_recordings envQuota 0 [mQuota] [] none).1 = ⟨1, 0, 0, 0, 0⟩ :=
  ⟨rfl, rfl,
   (C4_quota_degraded_not_counted envQuota 0 mQuota [] "ev21" rfl (Or.inl rfl)
     rfl (by decide) rfl rfl rfl).1,
   (C4_quota_degraded_not_counted envQuota 0 mQuota [] "ev21" rfl (Or.inl rfl)
     rfl (by decide) rfl rfl rfl).2⟩

/-- Unfolding of the upsert on a store whose lookup succeeds. -/
theorem upsert_recording_of_find (now : Int) (mid : Nat)
    (ap : MeetingRecording → MeetingRecording) (s : List MeetingRecording)
    (r : MeetingRecording)
    (h : s.find? (fun x => x.meetingId == mid) = some r) :
    upsert_recording now mid ap s
      = (ap r, s.map (fun x => if x.meetingId == mid then ap x else x)) := by
  unfold upsert_recording
  rw [h]

/-- C1: for both normalization shapes (Conference Records API and Drive
metadata), reconciling the same (meeting, candidate) pair twice against
a store obeying the one-recording-per-meeting invariant leaves exactly
one Recording row for the meeting; that row is the second call's result,
its normalized fields are exactly the second call's normalized output,
and rows of other meetings are untouched. -/
theorem C1_reconciler_idempotent (now1 now2 : Int) (m : Meeting)
    (d : ApiRecording) (env : GEnv) (f : DriveFile) (fid : String)
    (md : FileMetadata) (store : List MeetingRecording)
    (huniq : (store.filter (fun r => r.meetingId == m.id)).length ≤ 1)
    (hfid : optTruthy d.driveFileId = true)
    (hdid : f.id = some fid)
    (hmd : env.driveGetMetadata fid = .ok md) :
    (∃ r1 s1 r2 s2,
      create_or_update_recording_from_api now1 m d store = some (r1, s1)
      ∧ create_or_update_recording_from_api now2 m d s1 = some (r2, s2)
      ∧ (s2.filter (fun r => r.meetingId == m.id)).length = 1
      ∧ s2.find? (fun r => r.meetingId == m.id) = some r2
      ∧ r2.drive_file_id = d.driveFileId
      ∧ r2.drive_file_url = d.driveExportUri
      ∧ r2.duration_seconds
          = calculate_duration_from_timestamps d.startTime d.endTime
      ∧ r2.recording_state = d.state
      ∧ r2.recording_start_time = d.startTime
      ∧ r2.recording_end_time = d.endTime
      ∧ r2.available_at = d.endTime
      ∧ s2.filter (fun r => !(r.meetingId == m.id))
          = store.filter (fun r => !(r.meetingId == m.id)))
    ∧ (∃ r1 s1 r2 s2,
      create_or_update_recording_from_drive env now1 m f store = some (r1, s1)
      ∧ create_or_update_recording_from_drive env now2 m f s1 = some (r2, s2)
      ∧ (s2.filter (fun r => r.meetingId == m.id)).length = 1
      ∧ s2.find? (fun r => r.meetingId == m.id) = some r2
      ∧ r2.drive_file_id = some fid
      ∧ r2.drive_file_url = some (if optTruthy md.webViewLink
          then md.webViewLink.getD "" else get_file_url fid)
      ∧ r2.duration_seconds
          = md.videoDurationMillis.map (fun ms => ((ms / 1000 : Nat) : Int))
      ∧ r2.available_at = md.createdTime
      ∧ s2.filter (fun r => !(r.meetingId == m.id))
          = store.filter (fun r => !(r.meetingId == m.id))) := by
  constructor
  · have hpre := apiDefaults_meetingId d
    have e1 : create_or_update_recording_from_api now1 m d store
        = some (upsert_recording now1 m.id (apiDefaults d) store) := by
      unfold create_or_update_recording_from_api
      rw [if_pos hfid]
    have hf1 := upsert_recording_find now1 m.id (apiDefaults d) hpre store
    have hc1 := upsert_recording_count now1 m.id (apiDefaults d) hpre store huniq
    have e2 : create_or_update_recording_from_api now2 m d
        (upsert_recording now1 m.id (apiDefaults d) store).2
        = some (upsert_recording now2 m.id (apiDefaults d)
            (upsert_recording now1 m.id (apiDefaults d) store).2) := by
      unfold create_or_update_recording_from_api
      rw [if_pos hfid]
    have hu2 : upsert_recording now2 m.id (apiDefaults d)
        (upsert_recording now1 m.id (apiDefaults d) store).2
        = (apiDefaults d (upsert_recording now1 m.id (apiDefaults d) store).1,
           (upsert_recording now1 m.id (apiDefaults d) store).2.map
             (fun r => if r.meetingId == m.id then apiDefaults d r else r)) :=
      upsert_recording_of_find now2 m.id (apiDefaults d) _ _ hf1
    have hr2 : (upsert_recording now2 m.id (apiDefaults d)
        (upsert_recording now1 m.id (apiDefaults d) store).2).1
        = apiDefaults d (upsert_recording now1 m.id (apiDefaults d) store).1 := by
      rw [hu2]
    refine ⟨(upsert_recording now1 m.id (apiDefaults d) store).1,
      (upsert_recording now1 m.id (apiDefaults d) store).2,
      (upsert_recording now2 m.id (apiDefaults d)
        (upsert_recording now1 m.id (apiDefaults d) store).2).1,
      (upsert_recording now2 m.id (apiDefaults d)
        (upsert_recording now1 m.id (apiDefaults d) store).2).2,
      by rw [e1], by rw [e2],
      upsert_recording_count now2 m.id (apiDefaults d) hpre _ (Nat.le_of_eq hc1),
      upsert_recording_find now2 m.id (apiDefaults d) hpre _,
      by rw [hr2]; rfl, by rw [hr2]; rfl, by rw [hr2]; rfl,
      by rw [hr2]; rfl, by rw [hr2]; rfl, by rw [hr2]; rfl,
      by rw [hr2]; rfl,
      (upsert_recording_frame now2 m.id (apiDefaults d) hpre _).trans
        (upsert_recording_frame now1 m.id (apiDefaults d) hpre store)⟩
  · have hpre := driveDefaults_meetingId fid md
    have e1 : create_or_update_recording_from_drive env now1 m f store
        = some (upsert_recording now1 m.id (driveDefaults fid md) store) := by
      have h1 : create_or_update_recording_from_drive env now1 m f store
          = match env.driveGetMetadata fid with
            | .error _ => none
            | .ok md' =>
              some (upsert_recording now1 m.id (driveDefaults fid md') store) := by
        unfold create_or_update_recording_from_drive
        rw [hdid]
      rw [h1, hmd]
    have hf1 := upsert_recording_find now1 m.id (driveDefaults fid md) hpre store
    have hc1 :=
      upsert_recording_count now1 m.id (driveDefaults fid md) hpre store huniq
    have e2 : create_or_update_recording_from_drive env now2 m f
        (upsert_recording now1 m.id (driveDefaults fid md) store).2
        = some (upsert_recording now2 m.id (driveDefaults fid md)
            (upsert_recording now1 m.id (driveDefaults fid md) store).2) := by
      have h1 : create_or_update_recording_from_drive env now2 m f
          (upsert_recording now1 m.id (driveDefaults fid md) store).2
          = match env.driveGetMetadata fid with
            | .error _ => none
            | .ok md' =>
              some (upsert_recording now2 m.id (driveDefaults fid md')
                (upsert_recording now1 m.id (driveDefaults fid md) store).2) := by
        unfold create_or_update_recording_from_drive
        rw [hdid]
      rw [h1, hmd]
    have hu2 : upsert_recording now2 m.id (driveDefaults fid md)
        (upsert_recording now1 m.id (driveDefaults fid md) store).2
        = (driveDefaults fid md
            (upsert_recording now1 m.id (driveDefaults fid md) store).1,
           (upsert_recording now1 m.id (driveDefaults fid md) store).2.map
             (fun r => if r.meetingId == m.id then driveDefaults fid md r else r)) :=
      upsert_recording_of_find now2 m.id (driveDefaults fid md) _ _ hf1
    have hr2 : (upsert_recording now2 m.id (driveDefaults fid md)
        (upsert_recording now1 m.id (driveDefaults fid md) store).2).1
        = driveDefaults fid md
            (upsert_recording now1 m.id (driveDefaults fid md) store).1 := by
      rw [hu2]
    refine ⟨(upsert_recording now1 m.id (driveDefaults fid md) store).1,
      (upsert_recording now1 m.id (driveDefaults fid md) store).2,
      (upsert_recording now2 m.id (driveDefaults fid md)
        (upsert_recording now1 m.id (driveDefaults fid md) store).2).1,
      (upsert_recording now2 m.id (driveDefaults fid md)
        (upsert_recording now1 m.id (driveDefaults fid md) store).2).2,
      by rw [e1], by rw [e2],
      upsert_recording_count now2 m.id (driveDefaults fid md) hpre _
        (Nat.le_of_eq hc1),
      upsert_recording_find now2 m.id (driveDefaults fid md) hpre _,
      by rw [hr2]; rfl, by rw [hr2]; rfl, by rw [hr2]; rfl,
      by rw [hr2]; rfl,
      (upsert_recording_frame now2 m.id (driveDefaults fid md) hpre _).trans
        (upsert_recording_frame now1 m.id (driveDefaults fid md) hpre store)⟩

theorem C1_witness :
    (([] : List MeetingRecording).filter
        (fun r => r.meetingId == mRec.id)).length ≤ 1
    ∧ optTruthy apiD.driveFileId = true
    ∧ driveF.id = some "fid2"
    ∧ envMeta.driveGetMetadata "fid2" = .ok mdF
    ∧ (∃ r1 s1 r2 s2,
        create_or_update_recording_from_api 11 mRec apiD [] = some (r1, s1)
        ∧ create_or_update_recording_from_api 22 mRec apiD s1 = some (r2, s2)
        ∧ (s2.filter (fun r => r.meetingId == mRec.id)).length = 1
        ∧ s2.find? (fun r => r.meetingId == mRec.id) = some r2
        ∧ r2.drive_file_id = apiD.driveFileId
        ∧ r2.drive_file_url = apiD.driveExportUri
        ∧ r2.duration_seconds
            = calculate_duration_from_timestamps apiD.startTime apiD.endTime
        ∧ r2.recording_state = apiD.state
        ∧ r2.recording_start_time = apiD.startTime
        ∧ r2.recording_end_time = apiD.endTime
        ∧ r2.available_at = apiD.endTime
        ∧ s2.filter (fun r => !(r.meetingId == mRec.id))
            = ([] : List MeetingRecording).filter
                (fun r => !(r.meetingId == mRec.id))) :=
  ⟨by decide, by decide, rfl, rfl,
   (C1_reconciler_idempotent 11 22 mRec apiD envMeta driveF "fid2" mdF []
     (by decide) (by decide) rfl rfl).1⟩
